import Mathlib

/-!
Shallow embedding of the conversation memory manager of the repository
(`lib/memory/*` in the source tree): session storage, the summary memory
manager, configuration loading, and the corruption guard.  Timestamps are
modelled as integers (JS `Date.getTime()` values), the module-level
`Map<string, SessionData>` as an association list in insertion order (the
iteration order of a JS `Map`), and in-place mutation of the live record
held by the map as explicit re-insertion of the updated record under the
same key.  Fallible operations return their resulting store together with
an `Except` value; a `.error` models a JS exception propagating to the
caller.
-/

namespace MemoryModel

instance {ε α : Type} [DecidableEq ε] [DecidableEq α] :
    DecidableEq (Except ε α) := fun x y =>
  match x, y with
  | .ok a, .ok b =>
    if h : a = b then .isTrue (by rw [h]) else .isFalse (by simp [h])
  | .error a, .error b =>
    if h : a = b then .isTrue (by rw [h]) else .isFalse (by simp [h])
  | .ok _, .error _ => .isFalse (by simp)
  | .error _, .ok _ => .isFalse (by simp)

/-- Lookup in an association list, mirroring `Map.get`. -/
def alookup {κ α : Type} [DecidableEq κ] : List (κ × α) → κ → Option α
  | [], _ => none
  | (k, v) :: rest, key => if k = key then some v else alookup rest key

/-- Insert into an association list, mirroring `Map.set`: an existing key is
overwritten in place (keeping its position in insertion order), a new key is
appended at the end. -/
def ainsert {κ α : Type} [DecidableEq κ] : List (κ × α) → κ → α → List (κ × α)
  | [], key, v => [(key, v)]
  | (k, w) :: rest, key, v =>
    if k = key then (k, v) :: rest else (k, w) :: ainsert rest key v

/-- Remove a key from an association list, mirroring `Map.delete` (removes the
first — with `Map` semantics the only — entry with that key). -/
def aerase {κ α : Type} [DecidableEq κ] : List (κ × α) → κ → List (κ × α)
  | [], _ => []
  | (k, w) :: rest, key =>
    if k = key then rest else (k, w) :: aerase rest key

/-- JS `arr.slice(-k)`: the last `k` elements; `slice(-0)` is `slice(0)`, the
whole array. -/
def jsSliceFromNeg {α : Type} (l : List α) (k : Nat) : List α :=
  if k = 0 then l else l.drop (l.length - k)

/-- JS `arr.slice(0, -k)`: everything but the last `k` elements; `slice(0, -0)`
is `slice(0, 0)`, the empty array. -/
def jsSliceToNeg {α : Type} (l : List α) (k : Nat) : List α :=
  if k = 0 then [] else l.take (l.length - k)

/-- Whitespace characters recognised while trimming / skipping. -/
def isJsSpace (c : Char) : Bool :=
  c = ' ' ∨ c = '\t' ∨ c = '\n' ∨ c = '\r'

/-- JS `String.prototype.trim`. -/
def jsTrim (s : String) : String :=
  ⟨(((s.toList.dropWhile isJsSpace).reverse.dropWhile isJsSpace).reverse)⟩

/-- Value of a maximal leading run of decimal digits; `none` when it is empty
(JS `parseInt` yields `NaN` then). -/
def leadingDigitsVal (cs : List Char) : Option Nat :=
  let ds := cs.takeWhile Char.isDigit
  if ds.isEmpty then none
  else some (ds.foldl (fun a c => a * 10 + (c.toNat - 48)) 0)

/-- JS `parseInt(s, 10)`: skip leading whitespace, optional sign, then the
longest digit prefix; `none` models `NaN`. -/
def jsParseInt (s : String) : Option Int :=
  match s.toList.dropWhile isJsSpace with
  | '-' :: rest => (leadingDigitsVal rest).map (fun n => -(n : Int))
  | '+' :: rest => (leadingDigitsVal rest).map (fun n => (n : Int))
  | cs => (leadingDigitsVal cs).map (fun n => (n : Int))

/-! ## Data model (`lib/memory/types.ts`) -/

/-- `role: 'user' | 'assistant'`. -/
inductive Role where
  | user
  | assistant
  deriving DecidableEq, Repr

/-- `Message` from `types.ts`; `timestamp` is the `Date` as epoch integer. -/
structure Message where
  id : String
  role : Role
  content : String
  timestamp : Int
  deriving DecidableEq, Repr

/-- `SessionData` from `types.ts`. -/
structure SessionData where
  sessionId : String
  messages : List Message
  summaries : List String
  lastActivity : Int
  messageCount : Nat
  deriving DecidableEq, Repr

/-- `ConversationContext` from `types.ts`. -/
structure ConversationContext where
  summaries : List String
  recentMessages : List Message
  totalMessages : Nat
  deriving DecidableEq, Repr

/-- `MemoryConfig` from `types.ts`. -/
structure MemoryConfig where
  memoryThreshold : Nat
  recentMessagesLimit : Nat
  sessionTimeoutHours : Nat
  maxSessions : Nat
  geminiApiKey : Option String
  deriving DecidableEq, Repr

/-- The summary generator as seen by the manager: `isAvailable()` plus
`generateSummary`, whose `.error` outcome models the promise rejecting. -/
structure Summarizer where
  available : Bool
  generate : List Message → Except String String

/-- The in-memory `Map<string, SessionData>` of `SessionStorage`. -/
abbrev Store : Type := List (String × SessionData)

/-- `createEmptySession` from `utils.ts`. -/
def createEmptySession (sessionId : String) (now : Int) : SessionData :=
  { sessionId := sessionId
    messages := []
    summaries := []
    lastActivity := now
    messageCount := 0 }

/-- `SessionStorage.getSession`: return the live record, touching
`lastActivity`; create-and-store an empty record for an unseen id.  Returns
the updated map together with the record the caller now aliases. -/
def getSession (store : Store) (sid : String) (now : Int) :
    Store × SessionData :=
  match alookup store sid with
  | some s =>
    let s' := { s with lastActivity := now }
    (ainsert store sid s', s')
  | none =>
    let s := createEmptySession sid now
    (ainsert store sid s, s)

/-- `SessionStorage.updateSession`, called by the manager with the very
record it aliases out of the map: validation of a well-typed record always
passes, `updateSessionActivity` touches `lastActivity`, and `Map.set` writes
the record back under its key. -/
def updateSession (store : Store) (sid : String) (now : Int) : Store :=
  match alookup store sid with
  | some s => ainsert store sid { s with lastActivity := now }
  | none => store

/-- `needsSummarization` from `summarization-utils.ts`: the lifetime
`messageCount` is compared against the threshold. -/
def needsSummarization (cfg : MemoryConfig) (s : SessionData) : Prop :=
  cfg.memoryThreshold ≤ s.messageCount

instance (cfg : MemoryConfig) (s : SessionData) :
    Decidable (needsSummarization cfg s) :=
  inferInstanceAs (Decidable (_ ≤ _))

/-- `getMessagesToSummarize` from `summarization-utils.ts`:
`messages.slice(0, -recentMessagesLimit)` guarded by
`messages.length <= messagesToKeep`. -/
def getMessagesToSummarize (limit : Nat) (messages : List Message) :
    List Message :=
  if messages.length ≤ limit then [] else jsSliceToNeg messages limit

/-- `getRecentMessages` from `summarization-utils.ts`:
`messages.slice(-recentMessagesLimit)`. -/
def getRecentMessages (limit : Nat) (messages : List Message) : List Message :=
  jsSliceFromNeg messages limit

/-- `SummaryMemoryManager.triggerSummarization`.  The `.error` outcome models
the `ReferenceError` raised when `summaryGenerator.generateSummary` rejects:
the `catch` block reads `session.messages.length`, but `session` is declared
inside the `try` block and is not in scope there, so the handler itself
throws and the error escapes `triggerSummarization`. -/
def triggerSummarization (cfg : MemoryConfig) (summ : Summarizer)
    (store : Store) (sid : String) (now : Int) : Store × Except String Unit :=
  let p := getSession store sid now
  let store1 := p.1
  let session := p.2
  if ¬ needsSummarization cfg session then (store1, .ok ())
  else if ¬ summ.available then (store1, .ok ())
  else
    let messagesToSummarize :=
      getMessagesToSummarize cfg.recentMessagesLimit session.messages
    if messagesToSummarize.length = 0 then (store1, .ok ())
    else
      match summ.generate messagesToSummarize with
      | .error _ => (store1, .error "ReferenceError: session is not defined")
      | .ok summary =>
        if summary ≠ "" ∧ 0 < (jsTrim summary).length then
          let session2 :=
            { session with
              summaries := session.summaries ++ [summary]
              messages := getRecentMessages cfg.recentMessagesLimit
                session.messages }
          (ainsert store1 sid session2, .ok ())
        else (store1, .ok ())

/-- `SummaryMemoryManager.addMessage`: fetch-or-create the live record, push
the message, bump `messageCount`, touch activity, maybe trigger
summarization, then `updateSession`.  An error escaping
`triggerSummarization` is caught, logged and re-thrown (`throw error`), so it
surfaces as the `.error` outcome; the mutations already applied to the live
record stay visible in the map. -/
def addMessage (cfg : MemoryConfig) (summ : Summarizer) (store : Store)
    (sid : String) (msg : Message) (now : Int) : Store × Except String Unit :=
  let p := getSession store sid now
  let session1 :=
    { p.2 with
      messages := p.2.messages ++ [msg]
      messageCount := p.2.messageCount + 1
      lastActivity := now }
  let store2 := ainsert p.1 sid session1
  if needsSummarization cfg session1 then
    match triggerSummarization cfg summ store2 sid now with
    | (store3, .error e) => (store3, .error e)
    | (store3, .ok _) => (updateSession store3 sid now, .ok ())
  else (updateSession store2 sid now, .ok ())

/-- `SummaryMemoryManager.getContext`: fetch-or-create the record, take the
last `recentMessagesLimit` messages, and return copies of the summaries and
of that slice together with the lifetime `messageCount`.  (The `catch` arm
returning an empty context is unreachable here: no operation on a well-typed
store throws.) -/
def getContext (cfg : MemoryConfig) (store : Store) (sid : String)
    (now : Int) : Store × ConversationContext :=
  let p := getSession store sid now
  (p.1,
   { summaries := p.2.summaries
     recentMessages := jsSliceFromNeg p.2.messages cfg.recentMessagesLimit
     totalMessages := p.2.messageCount })

/-- Sequential `addMessage` calls for one session, each awaited before the
next; a thrown error aborts the sequence (it would propagate to the caller). -/
def addSeq (cfg : MemoryConfig) (summ : Summarizer) (sid : String)
    (now : Int) : List Message → Store → Store × Except String Unit
  | [], store => (store, .ok ())
  | m :: ms, store =>
    match addMessage cfg summ store sid m now with
    | (store1, .error e) => (store1, .error e)
    | (store1, .ok _) => addSeq cfg summ sid now ms store1

/-- Result shape of `SessionStorage.getStats`. -/
structure MemoryStats where
  totalSessions : Nat
  totalMessages : Nat
  totalSummaries : Nat
  oldestSession : Option Int
  newestSession : Option Int
  deriving DecidableEq, Repr

/-- `SessionStorage.getStats`: note that `totalMessages` sums the records'
lifetime `messageCount` fields (`sum + session.messageCount` in the source),
not the lengths of the retained `messages` arrays. -/
def getStats (store : Store) : MemoryStats :=
  match store with
  | [] =>
    { totalSessions := 0, totalMessages := 0, totalSummaries := 0
      oldestSession := none, newestSession := none }
  | _ =>
    let sessions := store.map (·.2)
    let activities := sessions.map (·.lastActivity)
    { totalSessions := sessions.length
      totalMessages := (sessions.map (·.messageCount)).sum
      totalSummaries := (sessions.map (fun s => s.summaries.length)).sum
      oldestSession := some (activities.foldl min activities.headI)
      newestSession := some (activities.foldl max activities.headI) }

/-- Deleting each listed session (`sessions.delete(session.sessionId)`),
counting the deletions that found their key. -/
def removeSessions : List SessionData → Store → Store × Nat
  | [], store => (store, 0)
  | s :: rest, store =>
    let existed := (alookup store s.sessionId).isSome
    let p := removeSessions rest (aerase store s.sessionId)
    (p.1, (if existed then 1 else 0) + p.2)

/-- Records sorted by `lastActivity` ascending (oldest first): the sort of
`getSessionsByActivity` in `cleanup-utils.ts` and the inline sort of
`enforceSessionLimit`; JS `Array.prototype.sort` is stable, modelled by
`mergeSort`. -/
def getSessionsByActivity (sessions : List SessionData) : List SessionData :=
  sessions.mergeSort (fun a b => decide (a.lastActivity ≤ b.lastActivity))

/-- `SessionStorage.enforceSessionLimit`: no-op at or below the cap;
otherwise sort all records by `lastActivity` ascending and delete the oldest
`count - maxSessions`. -/
def enforceSessionLimit (maxSessions : Nat) (store : Store) : Store × Nat :=
  if store.length ≤ maxSessions then (store, 0)
  else
    let sorted := getSessionsByActivity (store.map (·.2))
    let toRemove := sorted.take (store.length - maxSessions)
    removeSessions toRemove store

/-! ## Configuration loading (`types.ts`, `config-validator.ts`) -/

/-- The environment variables configuration loading reads. -/
structure Env where
  memoryThresholdVar : Option String
  recentMessagesLimitVar : Option String
  sessionTimeoutHoursVar : Option String
  maxSessionsVar : Option String
  geminiApiKeyVar : Option String
  deriving DecidableEq, Repr

/-- One block of `loadMemoryConfig`: a set, non-empty (truthy) environment
value is parsed; it replaces the default only when `parsed > 0 && parsed <=
hi`, otherwise the field's default is kept. -/
def loadNatField (v : Option String) (hi : Int) (dflt : Nat) : Nat :=
  match v with
  | none => dflt
  | some s =>
    if s = "" then dflt
    else
      match jsParseInt s with
      | none => dflt
      | some p => if 0 < p ∧ p ≤ hi then p.toNat else dflt

/-- `loadMemoryConfig` from `types.ts`: each numeric field is loaded
independently with its own range and default; `geminiApiKey` is passed
through unchecked.  No cross-field check happens here. -/
def loadMemoryConfig (env : Env) : MemoryConfig :=
  { memoryThreshold := loadNatField env.memoryThresholdVar 100 10
    recentMessagesLimit := loadNatField env.recentMessagesLimitVar 20 6
    sessionTimeoutHours := loadNatField env.sessionTimeoutHoursVar 168 24
    maxSessions := loadNatField env.maxSessionsVar 10000 1000
    geminiApiKey := env.geminiApiKeyVar }

/-- Result of `validateMemoryConfig` from `config-validator.ts`. -/
structure ConfigValidationResult where
  isValid : Bool
  errors : List String
  warnings : List String
  recommendations : List String
  deriving DecidableEq, Repr

/-- `validateMemoryConfig` from `config-validator.ts`.  The numeric fields are
naturals here, so the `<= 0` error branches read `= 0`; the float comparison
`recentMessagesLimit / memoryThreshold > 0.8` (resp. `< 0.3`) is expressed as
the exact cross-multiplied integer comparison, which agrees with the double
arithmetic of the source on the configuration ranges involved. -/
def validateMemoryConfig (config : MemoryConfig) : ConfigValidationResult :=
  let errors :=
    (if config.memoryThreshold = 0 then
      ["Memory threshold must be greater than 0"] else [])
    ++ (if config.recentMessagesLimit = 0 then
      ["Recent messages limit must be greater than 0"]
    else if config.memoryThreshold ≤ config.recentMessagesLimit then
      ["Recent messages limit must be less than memory threshold"] else [])
    ++ (if config.sessionTimeoutHours = 0 then
      ["Session timeout must be greater than 0"] else [])
    ++ (if config.maxSessions = 0 then
      ["Max sessions must be greater than 0"] else [])
  let warnings :=
    (if config.memoryThreshold = 0 then []
    else if config.memoryThreshold < 5 then
      ["Memory threshold is very low, may cause frequent summarization"]
    else if 50 < config.memoryThreshold then
      ["Memory threshold is very high, may use excessive memory"] else [])
    ++ (if config.recentMessagesLimit = 0 then []
    else if config.memoryThreshold ≤ config.recentMessagesLimit then []
    else if config.recentMessagesLimit < 3 then
      ["Recent messages limit is very low, may lose conversation context"]
    else [])
    ++ (if config.sessionTimeoutHours = 0 then []
    else if 168 < config.sessionTimeoutHours then
      ["Session timeout is very long, may accumulate too many sessions"]
    else [])
    ++ (if config.maxSessions = 0 then []
    else if config.maxSessions < 10 then
      ["Max sessions is very low, may cause frequent cleanup"]
    else if 10000 < config.maxSessions then
      ["Max sessions is very high, may use excessive memory"] else [])
    ++ (match config.geminiApiKey with
    | none =>
      ["Gemini API key not configured, summarization will be disabled"]
    | some k =>
      if k = "" then
        ["Gemini API key not configured, summarization will be disabled"]
      else if k.length < 20 then
        ["Gemini API key appears to be too short"] else [])
    ++ (if 4 * config.memoryThreshold < 5 * config.recentMessagesLimit then
      ["Recent messages limit is too close to memory threshold"] else [])
  let recommendations :=
    (match config.geminiApiKey with
    | none =>
      ["Set GEMINI_API_KEY environment variable to enable summarization"]
    | some k =>
      if k = "" then
        ["Set GEMINI_API_KEY environment variable to enable summarization"]
      else [])
    ++ (if 4 * config.memoryThreshold < 5 * config.recentMessagesLimit then
      ["Consider increasing memory threshold or decreasing recent messages limit"]
    else if 10 * config.recentMessagesLimit < 3 * config.memoryThreshold then
      ["Recent messages limit is quite low relative to threshold, consider increasing for better context"]
    else [])
    ++ (if 100000 < config.memoryThreshold * config.maxSessions then
      ["High memory usage expected with current settings, monitor system resources"]
    else [])
  { isValid := errors.isEmpty
    errors := errors
    warnings := warnings
    recommendations := recommendations }

/-! ## Corruption guard (`corruption-recovery.ts`)

The corruption guard deals with records whose fields may be ill-typed at
runtime, so it works on a *raw* record shape.  A field that the TS code
probes with `typeof` / `instanceof` / `Array.isArray` is modelled by a sum
capturing the outcomes those probes distinguish. -/

/-- A runtime value probed as a session id: a string, a non-string falsy
value (`null`, `undefined`, `0`, …) or a non-string truthy value. -/
inductive RawId where
  | str (s : String)
  | nonStringFalsy
  | nonStringTruthy
  deriving DecidableEq, Repr

/-- A runtime value probed as a `Date`: a valid date, an `Invalid Date`
(passes `instanceof Date` but `getTime()` is `NaN`), or not a `Date`. -/
inductive RawDate where
  | valid (t : Int)
  | invalidDate
  | notDate
  deriving DecidableEq, Repr

/-- An object in a raw `messages` array (a non-object/falsy entry is
modelled as `none` at the use site). -/
structure RawMessage where
  id : Option String
  role : Option String
  content : Option String
  timestamp : Option Int
  deriving DecidableEq, Repr

/-- A raw session record as the corruption guard may find it in the store:
`messages`/`summaries` are `none` when not arrays; a summary entry is `none`
when not a string; `messageCount` is `none` when not a number. -/
structure RawSession where
  sessionId : RawId
  messages : Option (List (Option RawMessage))
  summaries : Option (List (Option String))
  lastActivity : RawDate
  messageCount : Option Int
  deriving DecidableEq, Repr

/-- The raw store underlying `SessionStorage` as the corruption guard sees
it. -/
abbrev RawStore : Type := List (String × RawSession)

/-- `validateMessage` from `corruption-recovery.ts`. -/
def validateMessage (m : Option RawMessage) : Bool :=
  match m with
  | none => false
  | some msg =>
    (match msg.id with
    | some i => 0 < i.length
    | none => false)
    && (msg.role = some "user" ∨ msg.role = some "assistant")
    && msg.content.isSome
    && msg.timestamp.isSome

/-- A valid summary entry: truthy, a string, non-blank after trimming. -/
def validSummary (s : Option String) : Bool :=
  match s with
  | none => false
  | some str => str ≠ "" && 0 < (jsTrim str).length

/-- `validateSessionData` from `utils.ts`, on a raw record: `sessionId` a
string, `messages`/`summaries` arrays, `lastActivity` an `instanceof Date`
(an `Invalid Date` passes this check), `messageCount` a number. -/
def validateSessionData (s : RawSession) : Bool :=
  (match s.sessionId with
  | .str _ => true
  | _ => false)
  && s.messages.isSome
  && s.summaries.isSome
  && (s.lastActivity ≠ .notDate)
  && s.messageCount.isSome

/-- `validateSessionIntegrity` from `corruption-recovery.ts`: an early
return when `validateSessionData` fails; otherwise issues are collected for
a falsy/non-string id, each invalid message, each invalid summary, a
`messageCount` different from `messages.length`, and an invalid timestamp. -/
def validateSessionIntegrity (s : RawSession) : Bool × List String :=
  if ¬ validateSessionData s then
    (false, ["Invalid session data structure"])
  else
    let idIssues :=
      match s.sessionId with
      | .str i => if i = "" then ["Invalid or missing session ID"] else []
      | _ => ["Invalid or missing session ID"]
    let msgIssues :=
      match s.messages with
      | none => ["Messages is not an array"]
      | some msgs =>
        (msgs.enum.filter (fun p => ¬ validateMessage p.2)).map
          (fun p => "Invalid message at index " ++ toString p.1)
    let sumIssues :=
      match s.summaries with
      | none => ["Summaries is not an array"]
      | some sums =>
        (sums.enum.filter (fun p => ¬ validSummary p.2)).map
          (fun p => "Invalid summary at index " ++ toString p.1)
    let countIssues :=
      match s.messageCount, s.messages with
      | some n, some msgs =>
        if n ≠ (msgs.length : Int) then
          ["Message count mismatch: count=" ++ toString n ++ ", actual="
            ++ toString msgs.length]
        else []
      | _, _ => []
    let tsIssues :=
      match s.lastActivity with
      | .valid _ => []
      | _ => ["Invalid last activity timestamp"]
    let issues := idIssues ++ msgIssues ++ sumIssues ++ countIssues ++ tsIssues
    (issues.isEmpty, issues)

/-- `repairSessionData` from `corruption-recovery.ts`.  The regenerated id
`recovered_${Date.now()}_${random}` is modelled as a deterministic non-empty
string built from `now`.  The action messages that report how many entries
were removed reproduce the source's evaluation order: the arrays have
already been replaced when the difference is computed, so both counts are
zero. -/
def rawIdFalsy (i : RawId) : Bool :=
  match i with
  | .str s => s == ""
  | .nonStringFalsy => true
  | .nonStringTruthy => false

/-- The `messages` block of `repairSessionData`: reset a non-array, filter
invalid entries out of an array. -/
def repairMessages (m : Option (List (Option RawMessage))) :
    List (Option RawMessage) × List String :=
  match m with
  | none => ([], ["Reset messages array"])
  | some msgs =>
    let valid := msgs.filter validateMessage
    if valid.length ≠ msgs.length then
      (valid,
        ["Removed " ++ toString (valid.length - valid.length)
          ++ " invalid messages"])
    else (msgs, [])

/-- The `summaries` block of `repairSessionData`. -/
def repairSummaries (m : Option (List (Option String))) :
    List (Option String) × List String :=
  match m with
  | none => ([], ["Reset summaries array"])
  | some sums =>
    let valid := sums.filter validSummary
    if valid.length ≠ sums.length then
      (valid,
        ["Removed " ++ toString (valid.length - valid.length)
          ++ " invalid summaries"])
    else (sums, [])

def repairSessionData (s : RawSession) (now : Int) :
    RawSession × List String :=
  let idFalsy := rawIdFalsy s.sessionId
  let sessionId1 :=
    if idFalsy then RawId.str ("recovered_" ++ toString now) else s.sessionId
  let idActs := if idFalsy then ["Generated new session ID"] else []
  let p1 := repairMessages s.messages
  let p2 := repairSummaries s.summaries
  let len : Int := (p1.1.length : Int)
  let cntFix := s.messageCount ≠ some len
  let messageCount1 := if cntFix then some len else s.messageCount
  let cntActs := if cntFix then ["Corrected message count"] else []
  let tsFix :=
    match s.lastActivity with
    | .valid _ => false
    | _ => true
  let lastActivity1 := if tsFix then RawDate.valid now else s.lastActivity
  let tsActs := if tsFix then ["Reset last activity timestamp"] else []
  ({ sessionId := sessionId1
     messages := some p1.1
     summaries := some p2.1
     lastActivity := lastActivity1
     messageCount := messageCount1 },
   idActs ++ p1.2 ++ p2.2 ++ cntActs ++ tsActs)

/-- `createEmptySession` as a raw record. -/
def rawEmptySession (sessionId : String) (now : Int) : RawSession :=
  { sessionId := .str sessionId
    messages := some []
    summaries := some []
    lastActivity := .valid now
    messageCount := some 0 }

/-- `SessionStorage.updateSession` on raw data: reject a record failing
`validateSessionData`, otherwise touch `lastActivity` and write it back. -/
def rawUpdateSession (store : RawStore) (sid : String) (data : RawSession)
    (now : Int) : Except String RawStore :=
  if validateSessionData data then
    .ok (ainsert store sid { data with lastActivity := .valid now })
  else .error ("Invalid session data for session " ++ sid)

/-- `SessionStorage.getSession` on raw data: `updateSessionActivity` touches
the live record's `lastActivity` unconditionally, even on an otherwise
corrupted record. -/
def rawGetSession (store : RawStore) (sid : String) (now : Int) :
    RawStore × RawSession :=
  match alookup store sid with
  | some s =>
    let s' := { s with lastActivity := RawDate.valid now }
    (ainsert store sid s', s')
  | none =>
    let s := rawEmptySession sid now
    (ainsert store sid s, s)

/-- `CorruptionReport` from `corruption-recovery.ts`. -/
structure CorruptionReport where
  sessionId : String
  isCorrupted : Bool
  issues : List String
  recovered : Bool
  recoveryActions : List String
  deriving DecidableEq, Repr

/-- The `catch` arm of `detectAndRecoverCorruption`: try an emergency reset
to an empty session; report accordingly. -/
def recoverFallback (store : RawStore) (sid : String) (now : Int)
    (report : CorruptionReport) : RawStore × CorruptionReport :=
  match rawUpdateSession store sid (rawEmptySession sid now) now with
  | .ok store1 =>
    (store1, { report with
      recovered := true
      recoveryActions := ["Emergency session reset due to recovery error"] })
  | .error _ =>
    (store, { report with
      recovered := false
      recoveryActions := ["Failed to recover session"] })

/-- `detectAndRecoverCorruption` from `corruption-recovery.ts`: create an
empty record for a missing session; otherwise validate, repair if invalid,
re-validate the repair, fall back to a complete reset if it is still
invalid, and write the result back.  Every store error is caught and turned
into the emergency-reset fallback, so the operation never raises. -/
def detectAndRecoverCorruption (store : RawStore) (sid : String) (now : Int) :
    RawStore × CorruptionReport :=
  let report0 : CorruptionReport :=
    { sessionId := sid, isCorrupted := false, issues := []
      recovered := false, recoveryActions := [] }
  if (alookup store sid).isNone then
    let report1 := { report0 with issues := ["Session does not exist"] }
    match rawUpdateSession store sid (rawEmptySession sid now) now with
    | .ok store1 =>
      (store1, { report1 with
        recovered := true
        recoveryActions := ["Created new empty session"] })
    | .error _ => recoverFallback store sid now report1
  else
    let p := rawGetSession store sid now
    let store1 := p.1
    let session := p.2
    let validation := validateSessionIntegrity session
    if validation.1 then (store1, report0)
    else
      let report1 :=
        { report0 with isCorrupted := true, issues := validation.2 }
      let repair := repairSessionData session now
      let revalidation := validateSessionIntegrity repair.1
      if revalidation.1 then
        match rawUpdateSession store1 sid repair.1 now with
        | .ok store2 =>
          (store2, { report1 with
            recovered := true
            recoveryActions := repair.2 })
        | .error _ => recoverFallback store1 sid now report1
      else
        match rawUpdateSession store1 sid (rawEmptySession sid now) now with
        | .ok store2 =>
          (store2, { report1 with
            recovered := true
            recoveryActions := ["Complete session reset - repair failed"] })
        | .error _ => recoverFallback store1 sid now report1

/-! ## Array-identity model for `getContext`

To talk about *aliasing* — whether the arrays `getContext` returns are the
stored arrays or fresh copies — the relevant operations are re-embedded with
arrays as heap cells addressed by references.  A session record stores the
references of its `messages` and `summaries` arrays; `[...xs]` allocates a
fresh cell holding a copy of the content. -/

/-- A session record holding references to its two arrays. -/
structure RefSession where
  sessionId : String
  messagesRef : Nat
  summariesRef : Nat
  lastActivity : Int
  messageCount : Nat
  deriving DecidableEq, Repr

/-- The array heap: message arrays and string arrays addressed by
references below `next`. -/
structure Heap where
  msgArrays : List (Nat × List Message)
  strArrays : List (Nat × List String)
  next : Nat
  deriving Repr

/-- The session map in the reference model. -/
abbrev RefStore : Type := List (String × RefSession)

def readMsgs (h : Heap) (r : Nat) : List Message :=
  (alookup h.msgArrays r).getD []

def readStrs (h : Heap) (r : Nat) : List String :=
  (alookup h.strArrays r).getD []

/-- Allocate a fresh message array. -/
def allocMsgs (h : Heap) (content : List Message) : Heap × Nat :=
  ({ h with msgArrays := (h.next, content) :: h.msgArrays, next := h.next + 1 },
   h.next)

/-- Allocate a fresh string array. -/
def allocStrs (h : Heap) (content : List String) : Heap × Nat :=
  ({ h with strArrays := (h.next, content) :: h.strArrays, next := h.next + 1 },
   h.next)

/-- Mutate the message array behind a reference (what a caller writing into
a returned array does). -/
def writeMsgs (h : Heap) (r : Nat) (content : List Message) : Heap :=
  { h with msgArrays := ainsert h.msgArrays r content }

/-- Mutate the string array behind a reference. -/
def writeStrs (h : Heap) (r : Nat) (content : List String) : Heap :=
  { h with strArrays := ainsert h.strArrays r content }

/-- `getSession` in the reference model: an unseen id gets an empty record
with two freshly allocated empty arrays; an existing record just has its
`lastActivity` touched. -/
def getSessionRef (store : RefStore) (h : Heap) (sid : String) (now : Int) :
    RefStore × Heap × RefSession :=
  match alookup store sid with
  | some s =>
    let s' := { s with lastActivity := now }
    (ainsert store sid s', h, s')
  | none =>
    let p1 := allocMsgs h []
    let p2 := allocStrs p1.1 []
    let s : RefSession :=
      { sessionId := sid, messagesRef := p1.2, summariesRef := p2.2
        lastActivity := now, messageCount := 0 }
    (ainsert store sid s, p2.1, s)

/-- The context as returned in the reference model: references to the two
arrays handed to the caller. -/
structure RefContext where
  summariesRef : Nat
  recentRef : Nat
  totalMessages : Nat
  deriving DecidableEq, Repr

/-- `getContext` in the reference model: `[...session.summaries]` and
`[...recentMessages]` allocate fresh cells copying the stored content (the
slice itself is already a fresh array in JS; the spread copies it again). -/
def getContextRef (cfg : MemoryConfig) (store : RefStore) (h : Heap)
    (sid : String) (now : Int) : RefStore × Heap × RefContext :=
  let p := getSessionRef store h sid now
  let recent := jsSliceFromNeg (readMsgs p.2.1 p.2.2.messagesRef)
    cfg.recentMessagesLimit
  let q1 := allocStrs p.2.1 (readStrs p.2.1 p.2.2.summariesRef)
  let q2 := allocMsgs q1.1 recent
  (p.1, q2.1,
   { summariesRef := q1.2, recentRef := q2.2
     totalMessages := p.2.2.messageCount })

/-- Heap well-formedness: every array reference held by a stored session was
allocated, i.e. lies below the heap's allocation frontier. -/
def refStoreWF (store : RefStore) (h : Heap) : Prop :=
  ∀ p ∈ store, p.2.messagesRef < h.next ∧ p.2.summariesRef < h.next

instance (store : RefStore) (h : Heap) : Decidable (refStoreWF store h) := by
  unfold refStoreWF
  infer_instance

/-! ## Concrete fixtures used by witnesses and counterexamples -/

/-- The default configuration (`DEFAULT_CONFIG` plus a configured key). -/
def defCfg : MemoryConfig := ⟨10, 6, 24, 1000, some "k12345678901234567890"⟩

/-- A simple numbered user message. -/
def msgN (i : Nat) : Message :=
  ⟨"m" ++ toString i, .user, "hello " ++ toString i, (i : Int)⟩

/-- A summarizer that is available and produces `"SUMMARY-1"`. -/
def okSumm : Summarizer := ⟨true, fun _ => .ok "SUMMARY-1"⟩

/-- A summarizer that is available but whose generation call rejects. -/
def failSumm : Summarizer := ⟨true, fun _ => .error "generation failed"⟩

/-- A session one message short of the default threshold. -/
def sess9 : SessionData := ⟨"s1", (List.range 9).map msgN, [], 0, 9⟩

/-- Store holding `sess9`. -/
def store9 : Store := [("s1", sess9)]

/-- A session at the default threshold with a full tail, ready to be
summarized. -/
def sess10 : SessionData := ⟨"s1", (List.range 10).map msgN, [], 0, 10⟩

/-- Store holding `sess10`. -/
def store10 : Store := [("s1", sess10)]

/-- A summarized-looking session: lifetime count 10, retained tail of 6. -/
def statsSession : SessionData := ⟨"s1", (List.range 6).map msgN, ["x"], 0, 10⟩

/-- Store holding `statsSession`. -/
def statsStore : Store := [("s1", statsSession)]

/-- Four sessions with strictly increasing `lastActivity`. -/
def store4 : Store :=
  [("a", ⟨"a", [], [], 1, 0⟩), ("b", ⟨"b", [], [], 2, 0⟩),
   ("c", ⟨"c", [], [], 3, 0⟩), ("d", ⟨"d", [], [], 4, 0⟩)]

/-- Environment with two individually in-range values that violate the
cross-field invariant: threshold 5, recent-messages limit 10. -/
def envBad : Env := ⟨some "5", some "10", none, none, none⟩

/-- A valid raw message. -/
def rmsgN (i : Nat) : Option RawMessage :=
  some ⟨some ("m" ++ toString i), some "user", some ("c" ++ toString i),
    some (i : Int)⟩

/-- A structurally well-formed raw record with lifetime count 10 and a
retained tail of 6 messages. -/
def summarizedRaw : RawSession :=
  ⟨.str "s1", some ((List.range 6).map rmsgN), some [some "SUM"], .valid 0,
   some 10⟩

/-- A corrupted raw record: one message missing its role, `summaries` not an
array, invalid `lastActivity`, `messageCount` not a number. -/
def corruptRaw : RawSession :=
  ⟨.str "s1", some ((List.range 3).map rmsgN ++ [some ⟨some "bad", none,
    some "c", some 0⟩]), none, .notDate, none⟩

/-- A raw record whose `sessionId` is a non-string truthy value: repair
leaves it in place, so repair fails and the guard falls back to a full
reset. -/
def badIdRaw : RawSession := ⟨.nonStringTruthy, some [], some [], .valid 0,
  some 0⟩

/-- A one-session store in the reference model. -/
def refStore1 : RefStore := [("a", ⟨"a", 0, 1, 0, 2⟩)]

/-- A heap backing `refStore1`: array 0 holds two messages, array 1 one
summary. -/
def heap1 : Heap := ⟨[(0, [msgN 0, msgN 1])], [(1, ["old summary"])], 2⟩

/-! ## Association-list lemmas -/

theorem alookup_ainsert_self {κ α : Type} [DecidableEq κ]
    (l : List (κ × α)) (k : κ) (v : α) :
    alookup (ainsert l k v) k = some v := by
  induction l with
  | nil => simp [ainsert, alookup]
  | cons p rest ih =>
    obtain ⟨pk, pv⟩ := p
    by_cases h : pk = k <;> simp [ainsert, alookup, h, ih]

theorem alookup_ainsert_ne {κ α : Type} [DecidableEq κ]
    (l : List (κ × α)) (k k' : κ) (v : α) (h : k' ≠ k) :
    alookup (ainsert l k v) k' = alookup l k' := by
  induction l with
  | nil => simp [ainsert, alookup, Ne.symm h]
  | cons p rest ih =>
    obtain ⟨pk, pv⟩ := p
    by_cases h1 : pk = k <;> by_cases h2 : pk = k' <;>
      simp_all [ainsert, alookup, Ne.symm h]

theorem ainsert_ainsert {κ α : Type} [DecidableEq κ]
    (l : List (κ × α)) (k : κ) (a b : α) :
    ainsert (ainsert l k a) k b = ainsert l k b := by
  induction l with
  | nil => simp [ainsert]
  | cons p rest ih =>
    obtain ⟨pk, pv⟩ := p
    by_cases h : pk = k <;> simp [ainsert, h, ih]

theorem ainsert_of_alookup_eq {κ α : Type} [DecidableEq κ]
    (l : List (κ × α)) (k : κ) (v : α) (h : alookup l k = some v) :
    ainsert l k v = l := by
  induction l with
  | nil => simp [alookup] at h
  | cons p rest ih =>
    obtain ⟨pk, pv⟩ := p
    by_cases h1 : pk = k
    · simp [alookup, h1] at h
      simp [ainsert, h1, h]
    · simp [alookup, h1] at h
      simp [ainsert, h1, ih h]

theorem alookup_isSome_iff {κ α : Type} [DecidableEq κ]
    (l : List (κ × α)) (k : κ) :
    (alookup l k).isSome ↔ k ∈ l.map (·.1) := by
  induction l with
  | nil => simp [alookup]
  | cons p rest ih =>
    obtain ⟨pk, pv⟩ := p
    by_cases h : pk = k
    · subst h
      simp [alookup]
    · simp only [alookup, if_neg h, List.map_cons, List.mem_cons]
      rw [ih]
      constructor
      · exact fun hm => Or.inr hm
      · rintro (hm | hm)
        · exact absurd hm.symm h
        · exact hm

theorem aerase_eq_filter {κ α : Type} [DecidableEq κ]
    (l : List (κ × α)) (k : κ) (hnd : (l.map (·.1)).Nodup) :
    aerase l k = l.filter (fun p => decide (p.1 ≠ k)) := by
  induction l with
  | nil => simp [aerase]
  | cons p rest ih =>
    obtain ⟨pk, pv⟩ := p
    simp only [List.map_cons, List.nodup_cons] at hnd
    by_cases h : pk = k
    · subst h
      have hrest : rest.filter (fun p => decide (p.1 ≠ pk)) = rest := by
        apply List.filter_eq_self.mpr
        intro a ha
        simp only [ne_eq, decide_eq_true_eq]
        intro hh
        exact hnd.1 (hh ▸ List.mem_map_of_mem (·.1) ha)
      simpa [aerase] using hrest.symm
    · simp [aerase, h, ih hnd.2]

/-! ## Supporting lemmas for the claims -/

theorem repairSessionData_messageCount (s : RawSession) (now : Int) :
    (repairSessionData s now).1.messages = some (repairMessages s.messages).1
    ∧ (repairSessionData s now).1.messageCount
      = some ((repairMessages s.messages).1.length : Int) := by
  unfold repairSessionData
  by_cases h : s.messageCount = some ((repairMessages s.messages).1.length : Int)
  · simp [h]
  · simp [h]

theorem loadNatField_range (v : Option String) (hi : Int) (dflt : Nat)
    (h1 : 1 ≤ dflt) (h2 : (dflt : Int) ≤ hi) :
    1 ≤ loadNatField v hi dflt ∧ (loadNatField v hi dflt : Int) ≤ hi := by
  unfold loadNatField
  cases v with
  | none => exact ⟨h1, h2⟩
  | some s =>
    by_cases hs : s = ""
    · simpa [hs] using ⟨h1, h2⟩
    · simp only [hs, if_false]
      cases hp : jsParseInt s with
      | none => exact ⟨h1, h2⟩
      | some p =>
        by_cases hr : 0 < p ∧ p ≤ hi
        · dsimp only
          rw [if_pos hr]
          omega
        · simpa [hr] using ⟨h1, h2⟩

/-! ## Claims -/

/-- **C1** (code bug): the claim — graceful degradation of `addMessage` when
the summarizer throws — is what the code's own comments promise ("Don't
throw - summarization failures should not break message storage"), but the
`catch` block of `triggerSummarization` reads the out-of-scope `try`-local
`session`, so the handler itself raises and `addMessage` re-throws.  At a
session holding 9 messages, adding the 10th with a rejecting generator makes
`addMessage` return an error; the appended message is nonetheless retained
as the last stored message, `messageCount` is 10, and `summaries` is
unchanged. -/
theorem c1_addMessage_raises_when_generator_fails :
    (addMessage defCfg failSumm store9 "s1" (msgN 9) 0).2
      = .error "ReferenceError: session is not defined"
    ∧ (alookup (addMessage defCfg failSumm store9 "s1" (msgN 9) 0).1 "s1").map
        (fun s => (s.messages, s.summaries, s.messageCount))
      = some ((List.range 10).map msgN, [], 10) := by
  exact ⟨by decide, by decide⟩

/-- **C5** (counterexample): on a store holding one summarized session with
lifetime count 10 and a retained tail of 6 messages, `stats().totalMessages`
is 10, not the sum 6 of the current tail lengths — refuting the claim that
it sums `len(messages)`. -/
theorem c5_stats_counterexample :
    (getStats statsStore).totalMessages
      ≠ ((statsStore.map (·.2)).map (fun s => s.messages.length)).sum := by
  decide

/-- **C5** (amended): for every store state, `stats().totalMessages` is the
sum of the records' lifetime `messageCount` fields (and `totalSummaries` the
sum of the `summaries` lengths). -/
theorem c5_stats_totalMessages_amended (store : Store) :
    (getStats store).totalMessages
      = ((store.map (·.2)).map (·.messageCount)).sum
    ∧ (getStats store).totalSummaries
      = ((store.map (·.2)).map (fun s => s.summaries.length)).sum := by
  cases store <;> simp [getStats]

/-- **C4** (counterexample): a structurally well-formed summarized record
with lifetime count 10 and a retained tail of 6 valid messages is reported
*invalid* by `validateSessionIntegrity` (count mismatch is a fatal issue),
and `repairSessionData` rewrites its `messageCount` to 6 — refuting both
parts of the claim. -/
theorem c4_count_mismatch_counterexample :
    (validateSessionIntegrity summarizedRaw).1 = false
    ∧ (repairSessionData summarizedRaw 5).1.messageCount = some 6 := by
  exact ⟨by decide, by decide⟩

/-- **C4** (amended): any record whose numeric `messageCount` differs from
`messages.length` is reported invalid by `validateSessionIntegrity` — the
mismatch is fatal, not advisory — and `repairSessionData` always rewrites
`messageCount` to the length of the (repaired) `messages` array. -/
theorem c4_count_mismatch_is_fatal (s : RawSession) (now : Int)
    (msgs : List (Option RawMessage)) (n : Int)
    (hm : s.messages = some msgs) (hc : s.messageCount = some n)
    (hne : n ≠ (msgs.length : Int)) :
    (validateSessionIntegrity s).1 = false
    ∧ (repairSessionData s now).1.messageCount
      = some (((repairSessionData s now).1.messages.getD []).length : Int) := by
  constructor
  · by_cases hd : validateSessionData s
    · simp only [validateSessionIntegrity, hd, not_true_eq_false, if_false]
      simp [hm, hc, hne, List.isEmpty_iff, List.append_eq_nil]
    · simp [validateSessionIntegrity, hd]
  · have h := repairSessionData_messageCount s now
    rw [h.1, h.2]
    simp

/-- Witness for `c4_count_mismatch_is_fatal` at the concrete summarized
record. -/
theorem c4_count_mismatch_is_fatal_witness :
    (summarizedRaw.messages = some ((List.range 6).map rmsgN)
      ∧ summarizedRaw.messageCount = some 10
      ∧ (10 : Int) ≠ (((List.range 6).map rmsgN).length : Int))
    ∧ (validateSessionIntegrity summarizedRaw).1 = false := by
  exact ⟨⟨rfl, rfl, by decide⟩,
    (c4_count_mismatch_is_fatal summarizedRaw 5 ((List.range 6).map rmsgN) 10
      rfl rfl (by decide)).1⟩

/-- **C7** (counterexample): with `MEMORY_THRESHOLD=5` and
`RECENT_MESSAGES_LIMIT=10` — both individually in range — the loaded
configuration violates `recentMessagesLimit < memoryThreshold` and is used
as-is: nothing replaces the values. -/
theorem c7_cross_field_counterexample :
    ¬ ((loadMemoryConfig envBad).recentMessagesLimit
        < (loadMemoryConfig envBad).memoryThreshold) := by
  decide

/-- **C7** (amended): every individually out-of-range or unparsable
environment value falls back to its field's default, so each loaded field
always lies within its documented range; but the cross-field invariant
`recentMessagesLimit < memoryThreshold` is not enforced by replacement —
when a loaded configuration violates it, `validateMemoryConfig` merely
reports it as a (critical) error. -/
theorem c7_loadMemoryConfig_ranges (env : Env) :
    (1 ≤ (loadMemoryConfig env).memoryThreshold
      ∧ (loadMemoryConfig env).memoryThreshold ≤ 100)
    ∧ (1 ≤ (loadMemoryConfig env).recentMessagesLimit
      ∧ (loadMemoryConfig env).recentMessagesLimit ≤ 20)
    ∧ (1 ≤ (loadMemoryConfig env).sessionTimeoutHours
      ∧ (loadMemoryConfig env).sessionTimeoutHours ≤ 168)
    ∧ (1 ≤ (loadMemoryConfig env).maxSessions
      ∧ (loadMemoryConfig env).maxSessions ≤ 10000)
    ∧ ((loadMemoryConfig env).memoryThreshold
        ≤ (loadMemoryConfig env).recentMessagesLimit →
      (validateMemoryConfig (loadMemoryConfig env)).isValid = false) := by
  have h1 := loadNatField_range env.memoryThresholdVar 100 10 (by norm_num)
    (by norm_num)
  have h2 := loadNatField_range env.recentMessagesLimitVar 20 6 (by norm_num)
    (by norm_num)
  have h3 := loadNatField_range env.sessionTimeoutHoursVar 168 24 (by norm_num)
    (by norm_num)
  have h4 := loadNatField_range env.maxSessionsVar 10000 1000 (by norm_num)
    (by norm_num)
  refine ⟨⟨h1.1, by exact_mod_cast h1.2⟩, ⟨h2.1, by exact_mod_cast h2.2⟩,
    ⟨h3.1, by exact_mod_cast h3.2⟩, ⟨h4.1, by exact_mod_cast h4.2⟩, ?_⟩
  intro hcross
  have hrl : 1 ≤ (loadMemoryConfig env).recentMessagesLimit := h2.1
  simp only [validateMemoryConfig]
  simp [List.isEmpty_iff, List.append_eq_nil,
    Nat.not_eq_zero_of_lt hrl, hcross]

/-- Witness for `c7_loadMemoryConfig_ranges` at the concrete bad
environment. -/
theorem c7_loadMemoryConfig_ranges_witness :
    ((loadMemoryConfig envBad).memoryThreshold
      ≤ (loadMemoryConfig envBad).recentMessagesLimit)
    ∧ (validateMemoryConfig (loadMemoryConfig envBad)).isValid = false := by
  exact ⟨by decide, (c7_loadMemoryConfig_ranges envBad).2.2.2.2 (by decide)⟩

/-- Adding messages to an existing session that stays strictly below the
threshold: every call succeeds, the messages are appended in order,
`messageCount` counts them, and `summaries` and the rest of the record are
untouched (only `lastActivity` moves). -/
theorem addSeq_no_threshold (cfg : MemoryConfig) (summ : Summarizer)
    (sid : String) (now : Int) (msgs : List Message) (store : Store)
    (s : SessionData) (hs : alookup store sid = some s)
    (hcnt : s.messageCount + msgs.length < cfg.memoryThreshold) :
    (addSeq cfg summ sid now msgs store).2 = .ok ()
    ∧ ∃ t, alookup (addSeq cfg summ sid now msgs store).1 sid
      = some { s with
          messages := s.messages ++ msgs
          messageCount := s.messageCount + msgs.length
          lastActivity := t } := by
  induction msgs generalizing store s with
  | nil =>
    refine ⟨rfl, s.lastActivity, ?_⟩
    simpa [addSeq] using hs
  | cons m rest ih =>
    have hno : ¬ needsSummarization cfg
        { s with
          messages := s.messages ++ [m]
          messageCount := s.messageCount + 1
          lastActivity := now } := by
      simp only [needsSummarization, not_le]
      simp only [List.length_cons] at hcnt
      omega
    have hadd : addMessage cfg summ store sid m now
        = (ainsert store sid { s with
            messages := s.messages ++ [m]
            messageCount := s.messageCount + 1
            lastActivity := now },
           .ok ()) := by
      simp [addMessage, getSession, hs, hno, updateSession, ainsert_ainsert,
        alookup_ainsert_self]
    have hstep : addSeq cfg summ sid now (m :: rest) store
        = addSeq cfg summ sid now rest (ainsert store sid
            { s with
              messages := s.messages ++ [m]
              messageCount := s.messageCount + 1
              lastActivity := now }) := by
      simp [addSeq, hadd]
    rw [hstep]
    have ihres := ih (ainsert store sid
        { s with
          messages := s.messages ++ [m]
          messageCount := s.messageCount + 1
          lastActivity := now })
      { s with
        messages := s.messages ++ [m]
        messageCount := s.messageCount + 1
        lastActivity := now }
      (alookup_ainsert_self _ _ _)
      (by simp only [List.length_cons] at hcnt; dsimp only; omega)
    obtain ⟨hok, t, ht⟩ := ihres
    refine ⟨hok, t, ?_⟩
    rw [ht]
    have hmsg : (s.messages ++ [m]) ++ rest = s.messages ++ m :: rest := by
      simp
    have hcnt2 : s.messageCount + 1 + rest.length
        = s.messageCount + (m :: rest).length := by
      simp only [List.length_cons]
      omega
    dsimp only
    rw [hmsg, hcnt2]

/-- **C3** (counterexample): with the default configuration (threshold 10,
recent limit 6), adding 7 messages to a fresh session never crosses the
threshold, yet `getContext` returns only the last 6 messages, not the full
sequence. -/
theorem c3_context_counterexample :
    ¬ ((getContext defCfg
        (addSeq defCfg okSumm "s1" 0 ((List.range 7).map msgN) []).1
        "s1" 0).2.recentMessages = (List.range 7).map msgN) := by
  decide

/-- **C3** (amended): for any sequence of `addMessage` calls to a fresh
session that stays strictly below `memoryThreshold`, every call succeeds and
`getContext` returns no summaries, the *last `recentMessagesLimit`* of the
added messages (the whole sequence when it is no longer than the limit),
verbatim and in order, with `totalMessages` equal to the number added. -/
theorem c3_context_below_threshold (cfg : MemoryConfig) (summ : Summarizer)
    (sid : String) (now : Int) (msgs : List Message)
    (h : msgs.length < cfg.memoryThreshold) :
    (addSeq cfg summ sid now msgs []).2 = .ok ()
    ∧ (getContext cfg (addSeq cfg summ sid now msgs []).1 sid now).2
      = ⟨[], jsSliceFromNeg msgs cfg.recentMessagesLimit, msgs.length⟩ := by
  cases msgs with
  | nil =>
    refine ⟨rfl, ?_⟩
    simp [addSeq, getContext, getSession, alookup, createEmptySession,
      jsSliceFromNeg]
  | cons m rest =>
    have hone : ¬ needsSummarization cfg
        (⟨sid, [m], [], now, 1⟩ : SessionData) := by
      simp only [needsSummarization, not_le]
      simp only [List.length_cons] at h
      omega
    have h1 : addMessage cfg summ [] sid m now
        = ([(sid, ⟨sid, [m], [], now, 1⟩)], .ok ()) := by
      simp [addMessage, getSession, alookup, createEmptySession, ainsert,
        hone, updateSession]
    have hstep : addSeq cfg summ sid now (m :: rest) []
        = addSeq cfg summ sid now rest [(sid, ⟨sid, [m], [], now, 1⟩)] := by
      simp [addSeq, h1]
    rw [hstep]
    have hrest := addSeq_no_threshold cfg summ sid now rest
      [(sid, ⟨sid, [m], [], now, 1⟩)] ⟨sid, [m], [], now, 1⟩
      (by simp [alookup])
      (by simp only [List.length_cons] at h; simpa using by omega)
    obtain ⟨hok, t, ht⟩ := hrest
    refine ⟨hok, ?_⟩
    simp [getContext, getSession, ht]
    omega

/-- Witness for `c3_context_below_threshold`: three messages against the
default configuration. -/
theorem c3_context_below_threshold_witness :
    ((List.range 3).map msgN).length < defCfg.memoryThreshold
    ∧ (getContext defCfg
        (addSeq defCfg okSumm "s1" 0 ((List.range 3).map msgN) []).1
        "s1" 0).2
      = ⟨[], jsSliceFromNeg ((List.range 3).map msgN)
          defCfg.recentMessagesLimit, ((List.range 3).map msgN).length⟩ := by
  exact ⟨by decide,
    (c3_context_below_threshold defCfg okSumm "s1" 0 ((List.range 3).map msgN)
      (by decide)).2⟩

/-- **C2**: when a summarization attempt actually runs and succeeds — the
session is at or past the threshold, its tail exceeds a positive
`recentMessagesLimit`, the summarizer is available, generation returns a
non-blank summary — the stored tail afterwards is exactly the last
`recentMessagesLimit` messages, verbatim in order, and exactly the one new
summary has been appended to `summaries`. -/
theorem c2_summarization_pass (cfg : MemoryConfig) (summ : Summarizer)
    (store : Store) (sid : String) (now : Int) (s : SessionData)
    (summary : String)
    (hs : alookup store sid = some s)
    (hneed : cfg.memoryThreshold ≤ s.messageCount)
    (hav : summ.available = true)
    (hlim : 0 < cfg.recentMessagesLimit)
    (hlong : cfg.recentMessagesLimit < s.messages.length)
    (hgen : summ.generate (getMessagesToSummarize cfg.recentMessagesLimit
      s.messages) = .ok summary)
    (hne : summary ≠ "")
    (htrim : 0 < (jsTrim summary).length) :
    (triggerSummarization cfg summ store sid now).2 = .ok ()
    ∧ alookup (triggerSummarization cfg summ store sid now).1 sid
      = some { s with
          lastActivity := now
          summaries := s.summaries ++ [summary]
          messages := s.messages.drop
            (s.messages.length - cfg.recentMessagesLimit) }
    ∧ (s.messages.drop (s.messages.length - cfg.recentMessagesLimit)).length
      = cfg.recentMessagesLimit := by
  have hrec : getRecentMessages cfg.recentMessagesLimit s.messages
      = s.messages.drop (s.messages.length - cfg.recentMessagesLimit) := by
    unfold getRecentMessages jsSliceFromNeg
    rw [if_neg (by omega)]
  have hts : ¬ ((getMessagesToSummarize cfg.recentMessagesLimit
      s.messages).length = 0) := by
    unfold getMessagesToSummarize jsSliceToNeg
    rw [if_neg (by omega), if_neg (by omega)]
    simp only [List.length_take]
    omega
  have hneed' : ¬ ¬ needsSummarization cfg { s with lastActivity := now } :=
    not_not.mpr hneed
  have hav' : ¬ ¬ summ.available = true := not_not.mpr hav
  simp only [triggerSummarization, getSession, hs]
  rw [if_neg hneed', if_neg (by simp [hav]), if_neg hts, hgen]
  dsimp only
  rw [if_pos ⟨hne, htrim⟩]
  refine ⟨rfl, ?_, ?_⟩
  · rw [alookup_ainsert_self, hrec]
  · rw [List.length_drop]
    omega

/-- Witness for `c2_summarization_pass`: the session at the default
threshold with a 10-message tail and the succeeding summarizer. -/
theorem c2_summarization_pass_witness :
    (alookup store10 "s1" = some sess10
      ∧ defCfg.memoryThreshold ≤ sess10.messageCount
      ∧ okSumm.available = true
      ∧ 0 < defCfg.recentMessagesLimit
      ∧ defCfg.recentMessagesLimit < sess10.messages.length
      ∧ okSumm.generate (getMessagesToSummarize defCfg.recentMessagesLimit
          sess10.messages) = .ok "SUMMARY-1"
      ∧ "SUMMARY-1" ≠ ""
      ∧ 0 < (jsTrim "SUMMARY-1").length)
    ∧ (triggerSummarization defCfg okSumm store10 "s1" 99).2 = .ok () := by
  exact ⟨⟨rfl, by decide, rfl, by decide, by decide, rfl, by decide,
    by decide⟩,
    (c2_summarization_pass defCfg okSumm store10 "s1" 99 sess10 "SUMMARY-1"
      rfl (by decide) rfl (by decide) (by decide) rfl (by decide)
      (by decide)).1⟩

/-- When `triggerSummarization` raises (the generator rejected and the
broken `catch` block threw), the store it leaves behind is the input store
with only the session's `lastActivity` touched. -/
theorem triggerSummarization_error_store (cfg : MemoryConfig)
    (summ : Summarizer) (store : Store) (sid : String) (now : Int)
    (s : SessionData) (e : String) (hs : alookup store sid = some s)
    (herr : (triggerSummarization cfg summ store sid now).2 = .error e) :
    (triggerSummarization cfg summ store sid now).1
      = ainsert store sid { s with lastActivity := now } := by
  simp only [triggerSummarization, getSession, hs] at herr ⊢
  by_cases h1 : ¬ needsSummarization cfg { s with lastActivity := now }
  · rw [if_pos h1] at herr
    exact absurd herr (by simp)
  · rw [if_neg h1] at herr ⊢
    by_cases h2 : ¬ summ.available = true
    · rw [if_pos h2] at herr
      exact absurd herr (by simp)
    · rw [if_neg h2] at herr ⊢
      by_cases h3 : (getMessagesToSummarize cfg.recentMessagesLimit
          s.messages).length = 0
      · rw [if_pos h3] at herr
        exact absurd herr (by simp)
      · rw [if_neg h3] at herr ⊢
        cases hg : summ.generate (getMessagesToSummarize
            cfg.recentMessagesLimit s.messages) with
        | error ge => rfl
        | ok summary =>
          rw [hg] at herr
          dsimp only at herr
          by_cases h4 : summary ≠ "" ∧ 0 < (jsTrim summary).length
          · rw [if_pos h4] at herr
            exact absurd herr (by simp)
          · rw [if_neg h4] at herr
            exact absurd herr (by simp)

/-- **C9** (implicit): `addMessage` never rolls back an accepted append —
whenever it returns an error, the message it appended to the live record is
still the last stored message and `messageCount` has been incremented,
because the mutation hit the record held by the store before the failure
point. -/
theorem c9_no_rollback_on_error (cfg : MemoryConfig) (summ : Summarizer)
    (store : Store) (sid : String) (msg : Message) (now : Int) (e : String)
    (herr : (addMessage cfg summ store sid msg now).2 = .error e) :
    alookup (addMessage cfg summ store sid msg now).1 sid
      = some { (getSession store sid now).2 with
          messages := (getSession store sid now).2.messages ++ [msg]
          messageCount := (getSession store sid now).2.messageCount + 1
          lastActivity := now } := by
  simp only [addMessage] at herr ⊢
  by_cases hn : needsSummarization cfg
      { (getSession store sid now).2 with
        messages := (getSession store sid now).2.messages ++ [msg]
        messageCount := (getSession store sid now).2.messageCount + 1
        lastActivity := now }
  · rw [if_pos hn] at herr ⊢
    cases htr : triggerSummarization cfg summ
        (ainsert (getSession store sid now).1 sid
          { (getSession store sid now).2 with
            messages := (getSession store sid now).2.messages ++ [msg]
            messageCount := (getSession store sid now).2.messageCount + 1
            lastActivity := now }) sid now with
    | mk store3 r =>
      cases r with
      | ok u =>
        rw [htr] at herr
        exact absurd herr (by simp)
      | error e1 =>
        dsimp only
        have h5 := triggerSummarization_error_store cfg summ
          (ainsert (getSession store sid now).1 sid
            { (getSession store sid now).2 with
              messages := (getSession store sid now).2.messages ++ [msg]
              messageCount := (getSession store sid now).2.messageCount + 1
              lastActivity := now }) sid now
          { (getSession store sid now).2 with
            messages := (getSession store sid now).2.messages ++ [msg]
            messageCount := (getSession store sid now).2.messageCount + 1
            lastActivity := now } e1
          (alookup_ainsert_self _ _ _) (by rw [htr])
        rw [htr] at h5
        dsimp only at h5
        rw [h5, ainsert_ainsert]
        exact alookup_ainsert_self _ _ _
  · rw [if_neg hn] at herr
    exact absurd herr (by simp [updateSession])

/-- Witness for `c9_no_rollback_on_error`: the concrete failing input of the
summarization bug. -/
theorem c9_no_rollback_on_error_witness :
    (addMessage defCfg failSumm store9 "s1" (msgN 9) 5).2
      = .error "ReferenceError: session is not defined"
    ∧ alookup (addMessage defCfg failSumm store9 "s1" (msgN 9) 5).1 "s1"
      = some { (getSession store9 "s1" 5).2 with
          messages := (getSession store9 "s1" 5).2.messages ++ [msgN 9]
          messageCount := (getSession store9 "s1" 5).2.messageCount + 1
          lastActivity := 5 } := by
  exact ⟨by decide,
    c9_no_rollback_on_error defCfg failSumm store9 "s1" (msgN 9) 5
      "ReferenceError: session is not defined" (by decide)⟩

theorem alookup_mem {κ α : Type} [DecidableEq κ] (l : List (κ × α)) (k : κ)
    (v : α) (h : alookup l k = some v) : (k, v) ∈ l := by
  induction l with
  | nil => simp [alookup] at h
  | cons p rest ih =>
    obtain ⟨pk, pv⟩ := p
    by_cases hk : pk = k
    · subst hk
      simp [alookup] at h
      simp [h]
    · simp only [alookup, if_neg hk] at h
      exact List.mem_cons_of_mem _ (ih h)

theorem mem_ainsert {κ α : Type} [DecidableEq κ] (l : List (κ × α)) (k : κ)
    (v : α) (p : κ × α) : p ∈ ainsert l k v → p = (k, v) ∨ p ∈ l := by
  induction l with
  | nil =>
    intro h
    simpa [ainsert] using h
  | cons q rest ih =>
    obtain ⟨qk, qv⟩ := q
    by_cases hk : qk = k
    · intro h
      rw [show ainsert ((qk, qv) :: rest) k v = (qk, v) :: rest from by
        simp [ainsert, hk]] at h
      rcases List.mem_cons.mp h with h1 | h1
      · exact Or.inl (by rw [h1, hk])
      · exact Or.inr (List.mem_cons_of_mem _ h1)
    · intro h
      rw [show ainsert ((qk, qv) :: rest) k v = (qk, qv) :: ainsert rest k v
        from by simp [ainsert, hk]] at h
      rcases List.mem_cons.mp h with h1 | h1
      · exact Or.inr (by simp [h1])
      · rcases ih h1 with h2 | h2
        · exact Or.inl h2
        · exact Or.inr (List.mem_cons_of_mem _ h2)

theorem readMsgs_writeMsgs_ne (h : Heap) (r r' : Nat) (c : List Message)
    (hne : r' ≠ r) : readMsgs (writeMsgs h r c) r' = readMsgs h r' := by
  simp [readMsgs, writeMsgs, alookup_ainsert_ne _ _ _ _ hne]

theorem readStrs_writeStrs_ne (h : Heap) (r r' : Nat) (c : List String)
    (hne : r' ≠ r) : readStrs (writeStrs h r c) r' = readStrs h r' := by
  simp [readStrs, writeStrs, alookup_ainsert_ne _ _ _ _ hne]

theorem jsSliceFromNeg_nil {α : Type} (k : Nat) :
    jsSliceFromNeg ([] : List α) k = [] := by
  unfold jsSliceFromNeg
  split <;> simp

/-- **C10** (implicit): `getContext` hands back *fresh copies*: the two
arrays in the returned context are newly allocated cells distinct from every
array referenced by the store, so writing through them changes no stored
array; on an existing session the store changes only in that session's
`lastActivity`, and an unseen session id gets an empty record (with two
fresh empty arrays) created as a side effect. -/
theorem c10_getContext_fresh_copies (cfg : MemoryConfig) (store : RefStore)
    (h : Heap) (sid : String) (now : Int) (hwf : refStoreWF store h) :
    (∀ p ∈ (getContextRef cfg store h sid now).1,
      p.2.messagesRef ≠ (getContextRef cfg store h sid now).2.2.recentRef
      ∧ p.2.summariesRef
        ≠ (getContextRef cfg store h sid now).2.2.summariesRef)
    ∧ (∀ p ∈ (getContextRef cfg store h sid now).1,
      ∀ mcontent : List Message, ∀ scontent : List String,
      readMsgs (writeMsgs (getContextRef cfg store h sid now).2.1
          (getContextRef cfg store h sid now).2.2.recentRef mcontent)
        p.2.messagesRef
        = readMsgs (getContextRef cfg store h sid now).2.1 p.2.messagesRef
      ∧ readStrs (writeStrs (getContextRef cfg store h sid now).2.1
          (getContextRef cfg store h sid now).2.2.summariesRef scontent)
        p.2.summariesRef
        = readStrs (getContextRef cfg store h sid now).2.1 p.2.summariesRef)
    ∧ (∀ s0, alookup store sid = some s0 →
      (getContextRef cfg store h sid now).1
        = ainsert store sid { s0 with lastActivity := now })
    ∧ (alookup store sid = none →
      alookup (getContextRef cfg store h sid now).1 sid
        = some ⟨sid, h.next, h.next + 1, now, 0⟩
      ∧ readMsgs (getContextRef cfg store h sid now).2.1 h.next = []
      ∧ readStrs (getContextRef cfg store h sid now).2.1 (h.next + 1) = []) := by
  cases hlk : alookup store sid with
  | some s0 =>
    have hbound : ∀ p ∈ ainsert store sid { s0 with lastActivity := now },
        p.2.messagesRef < h.next ∧ p.2.summariesRef < h.next := by
      intro p hp
      rcases mem_ainsert _ _ _ _ hp with hp1 | hp1
      · subst hp1
        exact hwf (sid, s0) (alookup_mem _ _ _ hlk)
      · exact hwf p hp1
    simp only [getContextRef, getSessionRef, hlk, allocStrs, allocMsgs]
    refine ⟨?_, ?_, ?_, ?_⟩
    · intro p hp
      have hb := hbound p hp
      constructor <;> [skip; skip] <;> omega
    · intro p hp mcontent scontent
      have hb := hbound p hp
      exact ⟨readMsgs_writeMsgs_ne _ _ _ _ (by omega),
        readStrs_writeStrs_ne _ _ _ _ (by omega)⟩
    · intro s1 hs1
      injection hs1 with h12
      subst h12
      rfl
    · intro hnone
      exact Option.noConfusion hnone
  | none =>
    have hbound : ∀ p ∈ ainsert store sid
        (⟨sid, h.next, h.next + 1, now, 0⟩ : RefSession),
        p.2.messagesRef < h.next + 2 ∧ p.2.summariesRef < h.next + 2 := by
      intro p hp
      rcases mem_ainsert _ _ _ _ hp with hp1 | hp1
      · subst hp1
        constructor <;> simp
      · have := hwf p hp1
        omega
    simp only [getContextRef, getSessionRef, hlk, allocStrs, allocMsgs]
    refine ⟨?_, ?_, ?_, ?_⟩
    · intro p hp
      have hb := hbound p hp
      constructor <;> [skip; skip] <;> omega
    · intro p hp mcontent scontent
      have hb := hbound p hp
      exact ⟨readMsgs_writeMsgs_ne _ _ _ _ (by omega),
        readStrs_writeStrs_ne _ _ _ _ (by omega)⟩
    · intro s1 hs1
      exact Option.noConfusion hs1
    · intro _
      refine ⟨alookup_ainsert_self _ _ _, ?_, ?_⟩
      · simp only [readMsgs, alookup]
        rw [if_neg (by omega)]
        simp
      · simp only [readStrs, alookup]
        rw [if_neg (by omega)]
        simp

theorem aerase_keys_nodup {κ α : Type} [DecidableEq κ]
    (l : List (κ × α)) (k : κ) (hnd : (l.map (·.1)).Nodup) :
    ((aerase l k).map (·.1)).Nodup := by
  rw [aerase_eq_filter _ _ hnd]
  exact ((List.filter_sublist l).map (·.1)).nodup hnd

/-- Deleting sessions whose distinct ids are all present removes exactly one
entry each: the result keeps the entries with other keys and counts every
deletion. -/
theorem removeSessions_spec (rs : List SessionData) (st : Store)
    (hnd : (st.map (·.1)).Nodup)
    (hrs : (rs.map (·.sessionId)).Nodup)
    (hmem : ∀ r ∈ rs, r.sessionId ∈ st.map (·.1)) :
    removeSessions rs st
      = (st.filter (fun p => decide (p.1 ∉ rs.map (·.sessionId))),
         rs.length) := by
  induction rs generalizing st with
  | nil => simp [removeSessions]
  | cons r rest ih =>
    have hex : (alookup st r.sessionId).isSome :=
      (alookup_isSome_iff _ _).2 (hmem r (List.mem_cons_self _ _))
    have her : aerase st r.sessionId
        = st.filter (fun p => decide (p.1 ≠ r.sessionId)) :=
      aerase_eq_filter _ _ hnd
    have hcons : r.sessionId ∉ rest.map (·.sessionId)
        ∧ (rest.map (·.sessionId)).Nodup := List.nodup_cons.mp hrs
    have hnd' : ((aerase st r.sessionId).map (·.1)).Nodup :=
      aerase_keys_nodup _ _ hnd
    have hmem' : ∀ q ∈ rest, q.sessionId ∈
        (aerase st r.sessionId).map (·.1) := by
      intro q hq
      have hqne : q.sessionId ≠ r.sessionId := by
        intro hqe
        exact hcons.1 (hqe ▸ List.mem_map_of_mem (·.sessionId) hq)
      rcases List.mem_map.mp (hmem q (List.mem_cons_of_mem _ hq)) with
        ⟨p, hp, hpk⟩
      rw [her]
      exact List.mem_map.mpr ⟨p, List.mem_filter.mpr
        ⟨hp, by simp [hpk, hqne]⟩, hpk⟩
    have hrec := ih (aerase st r.sessionId) hnd' hcons.2 hmem'
    have hunfold : removeSessions (r :: rest) st
        = ((removeSessions rest (aerase st r.sessionId)).1,
           1 + (removeSessions rest (aerase st r.sessionId)).2) := by
      simp [removeSessions, hex]
    rw [hunfold, hrec]
    simp only [Prod.mk.injEq]
    constructor
    · rw [her, List.filter_filter]
      apply List.filter_congr
      intro a _
      by_cases h1 : a.1 = r.sessionId
      · simp [h1]
      · by_cases h2 : a.1 ∈ rest.map (·.sessionId)
        · simp [h1, h2]
        · simp [h1, h2]
    · simp only [List.length_cons]
      omega

/-- A present key accounts for exactly one entry when keys are distinct. -/
theorem length_filter_ne_key {κ α : Type} [DecidableEq κ]
    (l : List (κ × α)) (k : κ) (hnd : (l.map (·.1)).Nodup)
    (hk : k ∈ l.map (·.1)) :
    (l.filter (fun p => decide (p.1 ≠ k))).length + 1 = l.length := by
  induction l with
  | nil => simp at hk
  | cons p rest ih =>
    obtain ⟨pk, pv⟩ := p
    simp only [List.map_cons, List.nodup_cons] at hnd
    by_cases hpk : pk = k
    · subst hpk
      have hall : rest.filter (fun p => decide (p.1 ≠ pk)) = rest := by
        apply List.filter_eq_self.mpr
        intro a ha
        have hane : a.1 ≠ pk := fun hh =>
          hnd.1 (hh ▸ List.mem_map_of_mem (·.1) ha)
        simpa using hane
      rw [List.filter_cons, if_neg (by simp), hall]
      simp
    · have hk' : k ∈ rest.map (·.1) := by
        rcases List.mem_cons.mp hk with h1 | h1
        · exact absurd h1.symm hpk
        · exact h1
      have := ih hnd.2 hk'
      rw [List.filter_cons, if_pos (by simpa using hpk)]
      simp only [List.length_cons]
      omega

/-- Filtering distinct present keys out removes exactly their number of
entries. -/
theorem length_filter_not_mem_keys {κ α : Type} [DecidableEq κ]
    (l : List (κ × α)) (ids : List κ) (hnd : (l.map (·.1)).Nodup)
    (hids : ids.Nodup) (hsub : ∀ i ∈ ids, i ∈ l.map (·.1)) :
    (l.filter (fun p => decide (p.1 ∉ ids))).length
      = l.length - ids.length := by
  induction ids generalizing l with
  | nil => simp
  | cons i rest ih =>
    have hsplit : l.filter (fun p => decide (p.1 ∉ i :: rest))
        = (l.filter (fun p => decide (p.1 ≠ i))).filter
            (fun p => decide (p.1 ∉ rest)) := by
      rw [List.filter_filter]
      apply List.filter_congr
      intro a _
      by_cases h1 : a.1 = i
      · simp [h1]
      · by_cases h2 : a.1 ∈ rest
        · simp [h1, h2]
        · simp [h1, h2]
    have hone := length_filter_ne_key l i hnd
      (hsub i (List.mem_cons_self _ _))
    have hcons : i ∉ rest ∧ rest.Nodup := List.nodup_cons.mp hids
    have hnd' : ((l.filter (fun p => decide (p.1 ≠ i))).map (·.1)).Nodup :=
      ((List.filter_sublist l).map (·.1)).nodup hnd
    have hsub' : ∀ j ∈ rest,
        j ∈ (l.filter (fun p => decide (p.1 ≠ i))).map (·.1) := by
      intro j hj
      have hjne : j ≠ i := fun hji => hcons.1 (hji ▸ hj)
      rcases List.mem_map.mp (hsub j (List.mem_cons_of_mem _ hj)) with
        ⟨p, hp, hpk⟩
      exact List.mem_map.mpr ⟨p, List.mem_filter.mpr
        ⟨hp, by simp [hpk, hjne]⟩, hpk⟩
    rw [hsplit, ih _ hnd' hcons.2 hsub']
    simp only [List.length_cons]
    omega

/-- **C6**: cap eviction is a no-op when the session count is at most
`maxSessions`; otherwise it deletes exactly `count - maxSessions` sessions —
the first `count - maxSessions` records of the store sorted ascending by
`lastActivity` — so the surviving store keeps exactly the `maxSessions`
entries whose keys are not among the evicted ids, every survivor's
`lastActivity` is at least every evicted record's, and the sort really is
ascending.  (Hypotheses: the map's keys are distinct — a `Map` invariant —
and each record's `sessionId` equals its key, which all store operations
maintain.) -/
theorem c6_enforceSessionLimit (maxSessions : Nat) (store : Store)
    (hnd : (store.map (·.1)).Nodup)
    (hid : ∀ p ∈ store, p.2.sessionId = p.1) :
    (store.length ≤ maxSessions →
      enforceSessionLimit maxSessions store = (store, 0))
    ∧ (maxSessions < store.length →
      (enforceSessionLimit maxSessions store).2 = store.length - maxSessions
      ∧ (enforceSessionLimit maxSessions store).1
        = store.filter (fun p => decide (p.1 ∉
            ((getSessionsByActivity (store.map (·.2))).take
              (store.length - maxSessions)).map (·.sessionId)))
      ∧ (enforceSessionLimit maxSessions store).1.length = maxSessions
      ∧ (getSessionsByActivity (store.map (·.2))).Pairwise
          (fun a b => a.lastActivity ≤ b.lastActivity)
      ∧ ∀ q ∈ (enforceSessionLimit maxSessions store).1,
        ∀ d ∈ (getSessionsByActivity (store.map (·.2))).take
          (store.length - maxSessions),
        d.lastActivity ≤ q.2.lastActivity) := by
  have hperm : List.Perm (getSessionsByActivity (store.map (·.2)))
      (store.map (·.2)) :=
    List.mergeSort_perm _ _
  have hkeys : store.map (·.2.sessionId) = store.map (·.1) :=
    List.map_congr_left hid
  have hvalsids : ((store.map (·.2)).map (·.sessionId)).Nodup := by
    rw [List.map_map]
    exact hkeys ▸ hnd
  have hsortids : ((getSessionsByActivity (store.map (·.2))).map
      (·.sessionId)).Nodup :=
    (hperm.map (·.sessionId)).nodup_iff.mpr hvalsids
  have hsorted : (getSessionsByActivity (store.map (·.2))).Pairwise
      (fun a b => a.lastActivity ≤ b.lastActivity) := by
    have := @List.sorted_mergeSort SessionData
      (fun a b => decide (a.lastActivity ≤ b.lastActivity))
      (fun a b c hab hbc => by
        simp only [decide_eq_true_eq] at hab hbc ⊢
        omega)
      (fun a b => by
        simp only [Bool.or_eq_true, decide_eq_true_eq]
        omega)
      (store.map (·.2))
    exact this.imp (by simp only [decide_eq_true_eq, imp_self, implies_true])
  constructor
  · intro hle
    simp [enforceSessionLimit, hle]
  · intro hover
    have hnle : ¬ store.length ≤ maxSessions := not_le.mpr hover
    have hevids : (((getSessionsByActivity (store.map (·.2))).take
        (store.length - maxSessions)).map (·.sessionId)).Nodup := by
      rw [List.map_take]
      exact ((List.take_sublist _ _).nodup hsortids)
    have hevmem : ∀ r ∈ (getSessionsByActivity (store.map (·.2))).take
        (store.length - maxSessions), r.sessionId ∈ store.map (·.1) := by
      intro r hr
      have hr1 : r ∈ store.map (·.2) :=
        hperm.mem_iff.mp (List.mem_of_mem_take hr)
      exact hkeys ▸ (List.map_map (·.sessionId) (·.2) store ▸
        List.mem_map_of_mem (·.sessionId) hr1)
    have hrem := removeSessions_spec
      ((getSessionsByActivity (store.map (·.2))).take
        (store.length - maxSessions)) store hnd hevids hevmem
    have hlen : ((getSessionsByActivity (store.map (·.2))).take
        (store.length - maxSessions)).length
        = store.length - maxSessions := by
      simp only [List.length_take, getSessionsByActivity,
        List.length_mergeSort, List.length_map]
      omega
    have hunfold : enforceSessionLimit maxSessions store
        = removeSessions ((getSessionsByActivity (store.map (·.2))).take
            (store.length - maxSessions)) store := by
      simp only [enforceSessionLimit]
      rw [if_neg hnle]
    have hcount : (enforceSessionLimit maxSessions store).2
        = store.length - maxSessions := by
      rw [hunfold, hrem]
      exact hlen
    have hstore1 : (enforceSessionLimit maxSessions store).1
        = store.filter (fun p => decide (p.1 ∉
            ((getSessionsByActivity (store.map (·.2))).take
              (store.length - maxSessions)).map (·.sessionId))) := by
      rw [hunfold, hrem]
    have hflen := length_filter_not_mem_keys store
      (((getSessionsByActivity (store.map (·.2))).take
        (store.length - maxSessions)).map (·.sessionId)) hnd hevids
      (by
        intro i hi
        rcases List.mem_map.mp hi with ⟨r, hr, hrid⟩
        exact hrid ▸ hevmem r hr)
    refine ⟨hcount, hstore1, ?_, hsorted, ?_⟩
    · rw [hstore1, hflen, List.length_map, hlen]
      omega
    · intro q hq d hd
      rw [hstore1] at hq
      have hq1 := List.mem_of_mem_filter hq
      have hq2 := List.of_mem_filter hq
      have hq3 : q.1 ∉ ((getSessionsByActivity (store.map (·.2))).take
          (store.length - maxSessions)).map (·.sessionId) := by
        simpa using hq2
      have hqv : q.2 ∈ getSessionsByActivity (store.map (·.2)) :=
        hperm.mem_iff.mpr (List.mem_map_of_mem (·.2) hq1)
      have hsplit := List.take_append_drop (store.length - maxSessions)
        (getSessionsByActivity (store.map (·.2)))
      have hqdrop : q.2 ∈ (getSessionsByActivity (store.map (·.2))).drop
          (store.length - maxSessions) := by
        rcases List.mem_append.mp (hsplit ▸ hqv) with h1 | h1
        · exact absurd ((hid q hq1) ▸
            List.mem_map_of_mem (·.sessionId) h1) hq3
        · exact h1
      have hpw := hsplit ▸ hsorted
      exact (List.pairwise_append.mp hpw).2.2 d hd q.2 hqdrop

/-- Witness for `c6_enforceSessionLimit`: four sessions with strictly
increasing activity against a cap of three evict exactly the oldest. -/
theorem c6_enforceSessionLimit_witness :
    ((store4.map (·.1)).Nodup ∧ (∀ p ∈ store4, p.2.sessionId = p.1)
      ∧ 3 < store4.length)
    ∧ (enforceSessionLimit 3 store4).2 = store4.length - 3 := by
  exact ⟨⟨by decide, by decide, by decide⟩,
    ((c6_enforceSessionLimit 3 store4 (by decide) (by decide)).2
      (by decide)).1⟩

/-- Integrity validation reads `lastActivity` only through its constructor:
two records differing only in the time of a *valid* `lastActivity` validate
identically. -/
theorem validateSessionIntegrity_touch (r : RawSession) (t t' : Int) :
    validateSessionIntegrity { r with lastActivity := .valid t }
      = validateSessionIntegrity { r with lastActivity := .valid t' } := rfl

/-- A freshly created empty session for a non-empty id passes integrity
validation. -/
theorem rawEmptySession_integrity (sid : String) (t : Int) (hsid : sid ≠ "") :
    validateSessionIntegrity (rawEmptySession sid t) = (true, []) := by
  unfold validateSessionIntegrity validateSessionData rawEmptySession
  simp [hsid]

theorem validateSessionData_of_integrity (r : RawSession)
    (h : (validateSessionIntegrity r).1 = true) :
    validateSessionData r = true := by
  by_cases hd : validateSessionData r = true
  · exact hd
  · exfalso
    unfold validateSessionIntegrity at h
    rw [if_pos (by simpa using hd)] at h
    simp at h

theorem integrity_lastActivity_valid (r : RawSession)
    (h : (validateSessionIntegrity r).1 = true) :
    ∃ t0, r.lastActivity = .valid t0 := by
  cases hla : r.lastActivity with
  | valid u => exact ⟨u, rfl⟩
  | invalidDate =>
    exfalso
    have hd := validateSessionData_of_integrity r h
    unfold validateSessionIntegrity at h
    rw [if_neg (by simp [hd])] at h
    simp [hla, List.isEmpty_iff, List.append_eq_nil] at h
  | notDate =>
    exfalso
    have hd : validateSessionData r = false := by
      unfold validateSessionData
      simp [hla]
    have := validateSessionData_of_integrity r h
    rw [hd] at this
    exact Bool.false_ne_true this

/-- Touching a valid record's `lastActivity` keeps it valid. -/
theorem integrity_retouch (rec : RawSession) (t : Int)
    (h : (validateSessionIntegrity rec).1 = true) :
    (validateSessionIntegrity
      { rec with lastActivity := .valid t }).1 = true := by
  obtain ⟨t0, ht0⟩ := integrity_lastActivity_valid rec h
  rw [validateSessionIntegrity_touch rec t t0]
  have heta : { rec with lastActivity := RawDate.valid t0 } = rec := by
    cases rec
    simp only at ht0
    simp [ht0]
  rw [heta]
  exact h

/-- `updateSession` on a fresh empty record always succeeds and stores it. -/
theorem rawUpdateSession_empty (st : RawStore) (sid : String) (t : Int) :
    rawUpdateSession st sid (rawEmptySession sid t) t
      = .ok (ainsert st sid (rawEmptySession sid t)) := by
  simp [rawUpdateSession, validateSessionData, rawEmptySession]

/-- `detectAndRecoverCorruption` on an existing record that validates (once
touched): it reports a clean session and only touches `lastActivity`. -/
theorem detectAndRecover_on_valid (st : RawStore) (sid : String) (t : Int)
    (rec : RawSession) (hs : alookup st sid = some rec)
    (hv : (validateSessionIntegrity
      { rec with lastActivity := .valid t }).1 = true) :
    detectAndRecoverCorruption st sid t
      = (ainsert st sid { rec with lastActivity := .valid t },
         ⟨sid, false, [], false, []⟩) := by
  unfold detectAndRecoverCorruption
  rw [if_neg (by simp [hs])]
  simp only [rawGetSession, hs]
  rw [if_pos hv]

/-- **C8** (amended): for every store and every *non-empty* session id,
`detectAndRecoverCorruption` writes back a record that passes
`validateSessionIntegrity` (creating, repairing or resetting as needed,
never raising), and a second run at any later time reports the session as
clean — not corrupted, no issues, no recovery actions — changing nothing but
`lastActivity`.  (For the empty session id the reset path writes a record
that itself fails validation; see the counterexample.) -/
theorem c8_detectAndRecover_selfheal (store : RawStore) (sid : String)
    (now t2 : Int) (hsid : sid ≠ "") :
    ∃ rec, alookup (detectAndRecoverCorruption store sid now).1 sid = some rec
      ∧ (validateSessionIntegrity rec).1 = true
      ∧ detectAndRecoverCorruption
          (detectAndRecoverCorruption store sid now).1 sid t2
        = (ainsert (detectAndRecoverCorruption store sid now).1 sid
            { rec with lastActivity := .valid t2 },
           ⟨sid, false, [], false, []⟩) := by
  have hmain : ∃ rec,
      alookup (detectAndRecoverCorruption store sid now).1 sid = some rec
      ∧ (validateSessionIntegrity rec).1 = true := by
    cases hlk : alookup store sid with
    | none =>
      refine ⟨rawEmptySession sid now, ?_, ?_⟩
      · unfold detectAndRecoverCorruption
        rw [if_pos (by simp [hlk]), rawUpdateSession_empty]
        exact alookup_ainsert_self _ _ _
      · rw [rawEmptySession_integrity sid now hsid]
    | some r =>
      by_cases hv : (validateSessionIntegrity
          { r with lastActivity := .valid now }).1 = true
      · refine ⟨{ r with lastActivity := .valid now }, ?_, hv⟩
        rw [detectAndRecover_on_valid store sid now r hlk hv]
        exact alookup_ainsert_self _ _ _
      · by_cases hv2 : (validateSessionIntegrity (repairSessionData
            { r with lastActivity := .valid now } now).1).1 = true
        · have hupd : rawUpdateSession
              (ainsert store sid { r with lastActivity := .valid now }) sid
              (repairSessionData { r with lastActivity := .valid now } now).1
              now
              = .ok (ainsert
                  (ainsert store sid { r with lastActivity := .valid now })
                  sid
                  { (repairSessionData
                      { r with lastActivity := .valid now } now).1 with
                    lastActivity := .valid now }) := by
            unfold rawUpdateSession
            rw [if_pos (by
              simpa using validateSessionData_of_integrity _ hv2)]
          have hD1 : (detectAndRecoverCorruption store sid now).1
              = ainsert store sid
                  { (repairSessionData
                      { r with lastActivity := .valid now } now).1 with
                    lastActivity := .valid now } := by
            unfold detectAndRecoverCorruption
            rw [if_neg (by simp [hlk])]
            simp only [rawGetSession, hlk]
            rw [if_neg hv, if_pos hv2, hupd]
            rw [ainsert_ainsert]
          refine ⟨{ (repairSessionData
              { r with lastActivity := .valid now } now).1 with
            lastActivity := .valid now }, ?_, ?_⟩
          · rw [hD1]
            exact alookup_ainsert_self _ _ _
          · exact integrity_retouch _ _ hv2
        · have hD1 : (detectAndRecoverCorruption store sid now).1
              = ainsert store sid (rawEmptySession sid now) := by
            unfold detectAndRecoverCorruption
            rw [if_neg (by simp [hlk])]
            simp only [rawGetSession, hlk]
            rw [if_neg hv, if_neg hv2, rawUpdateSession_empty]
            rw [ainsert_ainsert]
          refine ⟨rawEmptySession sid now, ?_, ?_⟩
          · rw [hD1]
            exact alookup_ainsert_self _ _ _
          · rw [rawEmptySession_integrity sid now hsid]
  obtain ⟨rec, hrec, hvrec⟩ := hmain
  exact ⟨rec, hrec, hvrec,
    detectAndRecover_on_valid _ sid t2 rec hrec
      (integrity_retouch rec t2 hvrec)⟩

/-- **C8** (counterexample): at the empty session id holding a record whose
`sessionId` field is a non-string truthy value, repair cannot fix the id, the
fallback reset writes an empty record whose empty `sessionId` *fails*
validation, and a second run reports the session as corrupted again — so the
claim fails as stated for every stored record. -/
theorem c8_detectAndRecover_counterexample :
    ((alookup (detectAndRecoverCorruption [("", badIdRaw)] "" 7).1 "").map
      (fun r => (validateSessionIntegrity r).1) = some false)
    ∧ (detectAndRecoverCorruption
        (detectAndRecoverCorruption [("", badIdRaw)] "" 7).1 ""
        9).2.isCorrupted = true := by
  exact ⟨by decide, by decide⟩

/-- Witness for `c8_detectAndRecover_selfheal` at a concrete corrupted
record. -/
theorem c8_detectAndRecover_selfheal_witness :
    ("s1" : String) ≠ ""
    ∧ ∃ rec, alookup
        (detectAndRecoverCorruption [("s1", corruptRaw)] "s1" 7).1 "s1"
        = some rec
      ∧ (validateSessionIntegrity rec).1 = true
      ∧ detectAndRecoverCorruption
          (detectAndRecoverCorruption [("s1", corruptRaw)] "s1" 7).1 "s1" 9
        = (ainsert (detectAndRecoverCorruption [("s1", corruptRaw)] "s1" 7).1
            "s1" { rec with lastActivity := .valid 9 },
           ⟨"s1", false, [], false, []⟩) := by
  exact ⟨by decide,
    c8_detectAndRecover_selfheal [("s1", corruptRaw)] "s1" 7 9 (by decide)⟩

/-- Witness for `c10_getContext_fresh_copies` on a one-session store. -/
theorem c10_getContext_fresh_copies_witness :
    refStoreWF refStore1 heap1
    ∧ ∀ p ∈ (getContextRef defCfg refStore1 heap1 "a" 9).1,
      p.2.messagesRef ≠ (getContextRef defCfg refStore1 heap1 "a" 9).2.2.recentRef
      ∧ p.2.summariesRef
        ≠ (getContextRef defCfg refStore1 heap1 "a" 9).2.2.summariesRef := by
  exact ⟨by decide,
    (c10_getContext_fresh_copies defCfg refStore1 heap1 "a" 9 (by decide)).1⟩

end MemoryModel
